import Mathlib

/-!
Shallow embedding of the action-item extraction pipeline of
`openai_service.py` (fireflies-ep-service).

Python strings are modelled as lists of characters (`PyStr`); `str.strip`
and friends are modelled with `List.dropWhile` on both ends, using
`Char.isWhitespace` (space, tab, CR, LF) as the whitespace class.
-/

abbrev PyStr := List Char

/-- Whitespace class used by `str.strip()` / `str.lstrip()` and by the
JSON scanner. -/
def isWs (c : Char) : Bool := c.isWhitespace

/-- Remove trailing characters satisfying `p` (right-hand strip). -/
def rdropW (p : Char → Bool) (l : PyStr) : PyStr :=
  (l.reverse.dropWhile p).reverse

/-- Python `str.strip(chars)`: drop matching characters from both ends. -/
def pyStrip (p : Char → Bool) (l : PyStr) : PyStr :=
  rdropW p (l.dropWhile p)

/-- Python `str.strip()` with no argument: trim whitespace at both ends. -/
def trimWs (l : PyStr) : PyStr := pyStrip isWs l

/-- Python `str.startswith(pre)`. -/
def startsWithL : PyStr → PyStr → Bool
  | [], _ => true
  | _ :: _, [] => false
  | p :: ps, c :: cs => p == c && startsWithL ps cs

/- ## Transcript normalizer (`_normalize_transcript_input`) -/

/-- One turn record.  Both the mapping-style turn (`turn.get("speaker")`,
`turn.get("text")`) and the attribute-style turn
(`getattr(turn, "speaker", None)`, `getattr(turn, "text", None)`) yield
an optional speaker and an optional text, so a single record type models
both representations. -/
structure Turn where
  speaker : Option PyStr
  text : Option PyStr

/-- The polymorphic transcript argument: a raw string, or an ordered list
of turn records. -/
inductive TranscriptInput where
  | raw (s : PyStr)
  | turns (ts : List Turn)

/-- Python `x or y` on an optional string: `None` and `""` are falsy. -/
def pyOrStr (x : Option PyStr) (dflt : PyStr) : PyStr :=
  match x with
  | none => dflt
  | some s => if s = [] then dflt else s

/-- Body of the per-turn loop of `_normalize_transcript_input`:
`speaker = (speaker_value or "Speaker").strip() or "Speaker"`,
`text = (text_value or "").strip()`, and the line `f"{speaker}: {text}"`
is kept only when `text` is non-empty. -/
def turnLine (t : Turn) : Option PyStr :=
  let s1 := trimWs (pyOrStr t.speaker "Speaker".data)
  let speaker := if s1 = [] then "Speaker".data else s1
  let text := trimWs (pyOrStr t.text [])
  if text = [] then none else some (speaker ++ ": ".data ++ text)

/-- `_normalize_transcript_input` (openai_service.py lines 96-115). -/
def _normalize_transcript_input : TranscriptInput → PyStr
  | .raw s => s
  | .turns ts => trimWs (List.intercalate "\n".data (ts.filterMap turnLine))

/- Spec-side reformulation of the turn handling, used to state the
order-preservation / dropped-turns claim as a refinement. -/

/-- Spec's words: a turn is retained exactly when its trimmed text is
non-empty. -/
def specTurnKeep (t : Turn) : Bool :=
  trimWs (t.text.getD []) ≠ []

/-- Spec's words: the line of a retained turn is
`"<speaker>: <text>"` with the speaker trimmed and replaced by
`"Speaker"` when empty or absent, and the text trimmed. -/
def specTurnLine (t : Turn) : PyStr :=
  (let s := trimWs (t.speaker.getD []);
   if s = [] then "Speaker".data else s) ++ ": ".data ++ trimWs (t.text.getD [])

/- ## JSON values and a model of `json.loads` -/

/-- JSON values as produced by `json.loads`.  Numbers keep their source
lexeme (the claims never compute with numeric values), objects keep their
fields in source order (lookup takes the last occurrence of a key, as a
Python dict built left to right would). -/
inductive Json where
  | jnull
  | jbool (b : Bool)
  | jnum (lit : PyStr)
  | jstr (s : PyStr)
  | jarr (elems : List Json)
  | jobj (fields : List (PyStr × Json))

/-- Dict lookup: last binding of the key wins. -/
def jget (fields : List (PyStr × Json)) (k : PyStr) : Option Json :=
  (fields.reverse.find? (fun p => p.1 == k)).map (fun p => p.2)

/-- Skip JSON whitespace. -/
def skipWs (cs : PyStr) : PyStr := cs.dropWhile isWs

/-- Expect an exact character sequence, returning the remainder. -/
def parseLit : PyStr → PyStr → Option PyStr
  | [], cs => some cs
  | _ :: _, [] => none
  | l :: ls, c :: cs => if c == l then parseLit ls cs else none

/-- Value of a hexadecimal digit. -/
def hexVal (c : Char) : Option Nat :=
  if c.isDigit then some (c.toNat - 48)
  else if 'a' ≤ c && c ≤ 'f' then some (c.toNat - 87)
  else if 'A' ≤ c && c ≤ 'F' then some (c.toNat - 55)
  else none

/-- Body of a JSON string after the opening quote: strict mode, so raw
control characters are rejected; escape sequences are decoded
(`\uXXXX` as a single code point). -/
def parseStrBody (acc : PyStr) : PyStr → Option (PyStr × PyStr)
  | [] => none
  | '"' :: rest => some (acc.reverse, rest)
  | '\\' :: rest =>
    match rest with
    | [] => none
    | e :: rest2 =>
      match e with
      | '"' => parseStrBody ('"' :: acc) rest2
      | '\\' => parseStrBody ('\\' :: acc) rest2
      | '/' => parseStrBody ('/' :: acc) rest2
      | 'b' => parseStrBody ('\x08' :: acc) rest2
      | 'f' => parseStrBody ('\x0c' :: acc) rest2
      | 'n' => parseStrBody ('\n' :: acc) rest2
      | 'r' => parseStrBody ('\r' :: acc) rest2
      | 't' => parseStrBody ('\t' :: acc) rest2
      | 'u' =>
        match rest2 with
        | a :: b :: c :: d :: rest3 =>
          match hexVal a, hexVal b, hexVal c, hexVal d with
          | some ha, some hb, some hc, some hd =>
            parseStrBody (Char.ofNat (((ha * 16 + hb) * 16 + hc) * 16 + hd) :: acc) rest3
          | _, _, _, _ => none
        | _ => none
      | _ => none
  | c :: rest => if c.toNat < 32 then none else parseStrBody (c :: acc) rest

/-- Longest digit run and the remainder. -/
def digitSpan (cs : PyStr) : PyStr × PyStr :=
  (cs.takeWhile Char.isDigit, cs.dropWhile Char.isDigit)

/-- Optional fraction part, appended to the lexeme. -/
def parseFrac (lex : PyStr) (cs : PyStr) : Option (PyStr × PyStr) :=
  match cs with
  | '.' :: r =>
    match digitSpan r with
    | ([], _) => none
    | (ds, r2) => some (lex ++ '.' :: ds, r2)
  | _ => some (lex, cs)

/-- Optional exponent part, appended to the lexeme. -/
def parseExp (lex : PyStr) (cs : PyStr) : Option (PyStr × PyStr) :=
  match cs with
  | e :: r =>
    if e == 'e' || e == 'E' then
      let (sg, r1) := match r with
        | s :: r2 => if s == '+' || s == '-' then ([s], r2) else (([] : PyStr), r)
        | [] => (([] : PyStr), r)
      match digitSpan r1 with
      | ([], _) => none
      | (ds, r2) => some (lex ++ e :: (sg ++ ds), r2)
    else some (lex, cs)
  | [] => some (lex, cs)

/-- JSON number lexeme: `-? (0 | [1-9][0-9]*) frac? exp?`. -/
def parseNum (cs : PyStr) : Option (PyStr × PyStr) :=
  let (sign, cs1) : PyStr × PyStr := match cs with
    | '-' :: r => (['-'], r)
    | _ => ([], cs)
  match cs1 with
  | '0' :: r => do
    let (lex1, r1) ← parseFrac (sign ++ ['0']) r
    parseExp lex1 r1
  | c :: r =>
    if c.isDigit then do
      let (ds, r0) := digitSpan r
      let (lex1, r1) ← parseFrac (sign ++ c :: ds) r0
      parseExp lex1 r1
    else none
  | [] => none

/-- Array items after the opening bracket (first item onward); `pv`
parses one value.  The fuel bounds the number of items. -/
def arrLoop (pv : PyStr → Option (Json × PyStr)) :
    Nat → PyStr → List Json → Option (Json × PyStr)
  | 0, _, _ => none
  | g + 1, cs, acc =>
    match pv cs with
    | none => none
    | some (v, r) =>
      match skipWs r with
      | ',' :: r2 => arrLoop pv g (skipWs r2) (v :: acc)
      | ']' :: r2 => some (.jarr (v :: acc).reverse, r2)
      | _ => none

/-- Object members after the opening brace (first key onward); `pv`
parses one value. -/
def objLoop (pv : PyStr → Option (Json × PyStr)) :
    Nat → PyStr → List (PyStr × Json) → Option (Json × PyStr)
  | 0, _, _ => none
  | g + 1, cs, acc =>
    match cs with
    | '"' :: r =>
      match parseStrBody [] r with
      | none => none
      | some (k, r1) =>
        match skipWs r1 with
        | ':' :: r2 =>
          match pv (skipWs r2) with
          | none => none
          | some (v, r3) =>
            match skipWs r3 with
            | ',' :: r4 => objLoop pv g (skipWs r4) ((k, v) :: acc)
            | '\x7d' :: r4 => some (.jobj ((k, v) :: acc).reverse, r4)
            | _ => none
        | _ => none
    | _ => none

/-- One JSON value starting at the first (non-whitespace) character;
returns the value and the unconsumed remainder.  Mirrors the Python
scanner: objects, arrays, strings, `true` / `false` / `null`, numbers,
and the non-standard constants `NaN` / `Infinity` / `-Infinity` that
`json.loads` accepts by default. -/
def parseV : Nat → PyStr → Option (Json × PyStr)
  | 0, _ => none
  | f + 1, cs =>
    match cs with
    | [] => none
    | c :: rest =>
      if c == '\x7b' then
        match skipWs rest with
        | '\x7d' :: r2 => some (.jobj [], r2)
        | r => objLoop (parseV f) (r.length + 1) r []
      else if c == '[' then
        match skipWs rest with
        | ']' :: r2 => some (.jarr [], r2)
        | r => arrLoop (parseV f) (r.length + 1) r []
      else if c == '"' then
        (parseStrBody [] rest).map (fun p => (.jstr p.1, p.2))
      else if c == 't' then
        (parseLit "rue".data rest).map (fun r => (.jbool true, r))
      else if c == 'f' then
        (parseLit "alse".data rest).map (fun r => (.jbool false, r))
      else if c == 'n' then
        (parseLit "ull".data rest).map (fun r => (.jnull, r))
      else if c == 'N' then
        (parseLit "aN".data rest).map (fun r => (.jnum "NaN".data, r))
      else if c == 'I' then
        (parseLit "nfinity".data rest).map (fun r => (.jnum "Infinity".data, r))
      else if c == '-' then
        match rest with
        | 'I' :: r2 => (parseLit "nfinity".data r2).map
            (fun r => (.jnum "-Infinity".data, r))
        | _ => (parseNum cs).map (fun p => (.jnum p.1, p.2))
      else if c.isDigit then
        (parseNum cs).map (fun p => (.jnum p.1, p.2))
      else none

/-- `json.loads` on trimmed text: the value must span the whole trimmed
input. -/
def jsonCore (u : PyStr) : Option Json :=
  match parseV (u.length + 1) u with
  | some (v, []) => some v
  | _ => none

/-- Model of `json.loads`: tolerate surrounding whitespace, then parse a
single value spanning the rest of the text. -/
def jsonLoads (t : PyStr) : Option Json := jsonCore (trimWs t)

/- ## `_parse_json_output` (openai_service.py lines 118-136) -/

/-- The fence-stripping prelude of `_parse_json_output`:
`if output_text.startswith("```"): output_text = output_text.strip("`");
if output_text.lower().startswith("json"): output_text = output_text[4:].lstrip()`. -/
def stripFence (s : PyStr) : PyStr :=
  if startsWithL "```".data s then
    let t := pyStrip (fun c => c == '`') s
    if startsWithL "json".data (t.map Char.toLower) then
      (t.drop 4).dropWhile isWs
    else t
  else s

/-- Python `text.find(c)`: index of the first occurrence, if any. -/
def pyFind (c : Char) (t : PyStr) : Option Nat :=
  t.findIdx? (fun x => x == c)

/-- Python `text.rfind(c)`: index of the last occurrence, if any. -/
def pyRfind (c : Char) (t : PyStr) : Option Nat :=
  (t.reverse.findIdx? (fun x => x == c)).map (fun j => t.length - 1 - j)

/-- The recovery substring `output_text[start : end + 1]` where `start`
is the first `\x7b` and `end` the last `\x7d`, provided both exist and
`end > start`. -/
def braceSub (t : PyStr) : Option PyStr :=
  match pyFind '\x7b' t, pyRfind '\x7d' t with
  | some s, some e => if s < e then some ((t.drop s).take (e + 1 - s)) else none
  | _, _ => none

/-- Domain errors of the service, by the exception raised.
`missingApiKey` is the `RuntimeError`; the others are the `ValueError`s
of `generate_action_items` / `_parse_json_output`; `attrError` models the
uncaught `AttributeError` from `data.get` when the parsed payload is not
an object. -/
inductive ServiceError where
  | missingApiKey
  | emptyTranscript
  | emptyResponse
  | invalidJson
  | noItemsList
  | attrError
deriving DecidableEq

/-- `_parse_json_output`: strict parse after fence stripping, then one
brace-extraction recovery pass, then
`ValueError("OpenAI response was not valid JSON.")`. -/
def _parse_json_output (s : PyStr) : Except ServiceError Json :=
  let t := stripFence s
  match jsonLoads t with
  | some v => Except.ok v
  | none =>
    match braceSub t with
    | some sub =>
      match jsonLoads sub with
      | some v => Except.ok v
      | none => Except.error .invalidJson
    | none => Except.error .invalidJson

/- ## `generate_action_items` (openai_service.py lines 138-189) -/

/-- Python slice `l[:m]` for an arbitrary integer bound. -/
def pyTake (l : List Json) (m : Int) : List Json :=
  if 0 ≤ m then l.take m.toNat else l.take (l.length - m.natAbs)

/-- `_format_participants` (openai_service.py lines 90-93). -/
def _format_participants (participants : List PyStr) : PyStr :=
  if participants = [] then "None provided.".data
  else List.intercalate "\n".data (participants.map (fun name => "- ".data ++ name))

/-- The user prompt of the request (openai_service.py lines 158-164). -/
def user_prompt (participants : List PyStr) (max_items : Int)
    (transcript_text : PyStr) : PyStr :=
  "Participants:\n".data ++ _format_participants participants ++ "\n\n".data ++
  "Max items: ".data ++ (toString max_items).data ++ "\n\n".data ++
  "Transcript:\n".data ++ transcript_text ++ "\n".data

/-- Response handling of `generate_action_items` after the backend call
(openai_service.py lines 176-189): strip the output text, reject an
empty response, parse, read `items` with default `[]`, require a list,
and apply the defensive cap `items[:max_items]`. -/
def processResponse (response_output_text : PyStr) (max_items : Int) :
    Except ServiceError (List Json) :=
  let output_text := trimWs response_output_text
  if output_text = [] then Except.error .emptyResponse
  else
    match _parse_json_output output_text with
    | Except.error e => Except.error e
    | Except.ok data =>
      match data with
      | Json.jobj fields =>
        let itemsJ : Json := match jget fields "items".data with
          | some j => j
          | none => Json.jarr []
        match itemsJ with
        | Json.jarr items =>
          Except.ok (if (items.length : Int) > max_items
                     then pyTake items max_items else items)
        | _ => Except.error .noItemsList
      | _ => Except.error .attrError

/-- `generate_action_items`, with the backend call abstracted: the
credential read from the environment is `api_key` (`None` or the value,
where the empty string is falsy) and the text the backend would return is
`response_output_text`.  The checks happen in source order: credential,
transcript normalization and emptiness, then the response handling. -/
def generate_action_items (api_key : Option PyStr)
    (response_output_text : PyStr) (transcript : TranscriptInput)
    (participants : List PyStr) (max_items : Int) :
    Except ServiceError (List Json) :=
  match api_key with
  | none => Except.error .missingApiKey
  | some k =>
    if k = [] then Except.error .missingApiKey
    else
      let transcript_text := _normalize_transcript_input transcript
      if transcript_text = [] then Except.error .emptyTranscript
      else processResponse response_output_text max_items

/- ## Helper lemmas -/

theorem trimWs_if_empty (tx : PyStr) :
    trimWs (if tx = [] then [] else tx) = trimWs tx := by
  by_cases h : tx = [] <;> simp [h]

theorem turnLine_eq_spec (t : Turn) :
    turnLine t = if specTurnKeep t then some (specTurnLine t) else none := by
  have hsw : trimWs "Speaker".data = "Speaker".data := by decide
  have hsn : ("Speaker".data : PyStr) ≠ [] := by decide
  have h0 : trimWs ([] : PyStr) = [] := by decide
  rcases t with ⟨sp, tx⟩
  simp only [turnLine, specTurnKeep, specTurnLine, pyOrStr, Option.getD]
  rcases tx with _ | tx
  · simp [h0]
  · rcases sp with _ | sp
    · by_cases h : trimWs tx = [] <;>
        simp [trimWs_if_empty, h, h0, hsw, hsn]
    · by_cases hsp : sp = []
      · by_cases h : trimWs tx = [] <;>
          simp [trimWs_if_empty, h, hsp, h0, hsw, hsn]
      · by_cases h : trimWs tx = [] <;>
          simp [trimWs_if_empty, h, hsp, h0, hsw, hsn]

theorem filterMap_eq_map_filter_of {α β : Type} (f : α → Option β)
    (p : α → Bool) (g : α → β)
    (h : ∀ x, f x = if p x then some (g x) else none) :
    ∀ l : List α, l.filterMap f = (l.filter p).map g := by
  intro l
  induction l with
  | nil => rfl
  | cons x xs ih =>
    by_cases hx : p x
    · simp [List.filterMap_cons, List.filter_cons, h x, hx, ih]
    · simp [List.filterMap_cons, List.filter_cons, h x, hx, ih]

theorem rdropW_concat_pos (p : Char → Bool) (l : PyStr) (c : Char)
    (h : p c = true) : rdropW p (l ++ [c]) = rdropW p l := by
  unfold rdropW
  rw [List.reverse_append]
  simp [List.dropWhile_cons, h]

theorem rdropW_cons_neg (p : Char → Bool) (c : Char) (l : PyStr)
    (h : p c = false) : rdropW p (c :: l) = c :: rdropW p l := by
  unfold rdropW
  rw [List.reverse_cons, List.dropWhile_append]
  by_cases he : (List.dropWhile p l.reverse).isEmpty
  · rw [if_pos he]
    rw [List.isEmpty_iff] at he
    simp [he, List.dropWhile_cons, h]
  · rw [if_neg he]
    rw [List.reverse_append]
    simp

theorem trimWs_append_ws (l : PyStr) (c : Char) (h : isWs c = true) :
    trimWs (l ++ [c]) = trimWs l := by
  unfold trimWs pyStrip
  rw [List.dropWhile_append]
  by_cases he : (List.dropWhile isWs l).isEmpty
  · rw [if_pos he]
    rw [List.isEmpty_iff] at he
    simp [he, List.dropWhile_cons, h, rdropW]
  · rw [if_neg he]
    exact rdropW_concat_pos isWs (List.dropWhile isWs l) c h

theorem trimWs_dropWhile (l : PyStr) :
    trimWs (l.dropWhile isWs) = trimWs l := by
  unfold trimWs pyStrip
  rw [List.dropWhile_idempotent]

theorem trimWs_cons_ws (c : Char) (l : PyStr) (h : isWs c = true) :
    trimWs (c :: l) = trimWs l := by
  unfold trimWs pyStrip
  rw [List.dropWhile_cons_of_pos h]

theorem jsonLoads_congr (a b : PyStr) (h : trimWs a = trimWs b) :
    jsonLoads a = jsonLoads b := by
  unfold jsonLoads
  rw [h]

theorem parseV_tick (n : Nat) (cs : PyStr) : parseV n ('`' :: cs) = none := by
  cases n with
  | zero => rfl
  | succ m => rfl

theorem jsonLoads_tick (tl : PyStr) (v : Json) :
    jsonLoads ('`' :: tl) ≠ some v := by
  intro h
  unfold jsonLoads at h
  rw [show trimWs ('`' :: tl) = '`' :: rdropW isWs tl by
        unfold trimWs pyStrip
        rw [List.dropWhile_cons_of_neg (by decide)]
        exact rdropW_cons_neg isWs '`' tl (by decide)] at h
  unfold jsonCore at h
  rw [parseV_tick] at h
  exact Option.noConfusion h

theorem startsWith_ticks_false_of_jsonLoads (P : PyStr) (v : Json)
    (h : jsonLoads P = some v) : startsWithL "```".data P = false := by
  cases P with
  | nil =>
    exfalso
    rw [show jsonLoads [] = none from rfl] at h
    exact Option.noConfusion h
  | cons c tl =>
    by_cases hc : c = '`'
    · subst hc
      exact absurd h (jsonLoads_tick tl v)
    · show (('`' == c) && startsWithL ['`', '`'] tl) = false
      have : ('`' == c) = false := by
        simp only [beq_eq_false_iff_ne, ne_eq]
        exact fun he => hc he.symm
      rw [this, Bool.false_and]

theorem dropWhile_ticks_json (X : PyStr) :
    List.dropWhile (fun c => c == '`') ("```json\n".data ++ X) =
      "json\n".data ++ X := rfl

theorem dropWhile_ticks_plain (X : PyStr) :
    List.dropWhile (fun c => c == '`') ("```\n".data ++ X) =
      "\n".data ++ X := rfl

theorem rdropW_ticks_tail (l : PyStr) :
    rdropW (fun c => c == '`') (l ++ "\n```".data) = l ++ "\n".data := by
  unfold rdropW
  rw [List.reverse_append]
  rw [show List.dropWhile (fun c => c == '`') ("\n```".data.reverse ++ l.reverse) =
        '\n' :: l.reverse from rfl]
  rw [List.reverse_cons, List.reverse_reverse]

theorem stripFence_fenced_json (P : PyStr) :
    stripFence ("```json\n".data ++ P ++ "\n```".data) =
      (P ++ "\n".data).dropWhile isWs := by
  unfold stripFence
  rw [show startsWithL "```".data ("```json\n".data ++ P ++ "\n```".data) = true
        from rfl]
  simp only [if_true]
  have hstrip : pyStrip (fun c => c == '`')
      ("```json\n".data ++ P ++ "\n```".data) =
      ("json\n".data ++ P) ++ "\n".data := by
    unfold pyStrip
    rw [List.append_assoc, dropWhile_ticks_json, ← List.append_assoc]
    exact rdropW_ticks_tail ("json\n".data ++ P)
  rw [hstrip]
  rw [show (("json\n".data ++ P) ++ "\n".data).map Char.toLower =
        "json\n".data.map Char.toLower ++ (P.map Char.toLower ++
          "\n".data.map Char.toLower) by
        rw [List.map_append, List.map_append, List.append_assoc]]
  rw [show ("json\n".data.map Char.toLower) = "json\n".data from rfl]
  rw [show startsWithL "json".data ("json\n".data ++
        (P.map Char.toLower ++ "\n".data.map Char.toLower)) = true from rfl]
  simp only [if_true]
  rw [show (("json\n".data ++ P) ++ "\n".data) = "json".data ++ ('\n' :: (P ++ "\n".data)) by
        simp [List.append_assoc]]
  rw [show List.drop 4 ("json".data ++ ('\n' :: (P ++ "\n".data))) =
        '\n' :: (P ++ "\n".data) from rfl]
  rw [List.dropWhile_cons_of_pos (by decide : isWs '\n' = true)]

theorem stripFence_fenced_plain (P : PyStr) :
    stripFence ("```\n".data ++ P ++ "\n```".data) = '\n' :: (P ++ "\n".data) := by
  unfold stripFence
  rw [show startsWithL "```".data ("```\n".data ++ P ++ "\n```".data) = true
        from rfl]
  simp only [if_true]
  have hstrip : pyStrip (fun c => c == '`')
      ("```\n".data ++ P ++ "\n```".data) = '\n' :: (P ++ "\n".data) := by
    unfold pyStrip
    rw [List.append_assoc, dropWhile_ticks_plain]
    rw [show ("\n".data ++ (P ++ "\n```".data)) = ('\n' :: P) ++ "\n```".data by
          simp [List.append_assoc]]
    rw [rdropW_ticks_tail ('\n' :: P)]
    simp
  rw [hstrip]
  rw [show ('\n' :: (P ++ "\n".data)).map Char.toLower =
        '\n' :: (P ++ "\n".data).map Char.toLower from rfl]
  rw [show startsWithL "json".data ('\n' :: (P ++ "\n".data).map Char.toLower) =
        false from rfl]
  simp only [Bool.false_eq_true, if_false]

theorem jsonLoads_fenced_json (P : PyStr) :
    jsonLoads (stripFence ("```json\n".data ++ P ++ "\n```".data)) =
      jsonLoads P := by
  rw [stripFence_fenced_json]
  apply jsonLoads_congr
  rw [show ((P ++ "\n".data).dropWhile isWs) = List.dropWhile isWs (P ++ ['\n'])
        from rfl]
  rw [trimWs_dropWhile, trimWs_append_ws P '\n' (by decide)]

theorem jsonLoads_fenced_plain (P : PyStr) :
    jsonLoads (stripFence ("```\n".data ++ P ++ "\n```".data)) =
      jsonLoads P := by
  rw [stripFence_fenced_plain]
  apply jsonLoads_congr
  rw [trimWs_cons_ws '\n' (P ++ "\n".data) (by decide)]
  rw [show (P ++ "\n".data) = P ++ ['\n'] from rfl]
  rw [trimWs_append_ws P '\n' (by decide)]

/- ## Claim theorems -/

/-- C8: for every string input the normalizer returns the string
unchanged, and normalization is idempotent: normalizing the normalizer's
own output (fed back as a raw string) returns it unchanged. -/
theorem normalize_raw_id_and_idempotent :
    (∀ s : PyStr, _normalize_transcript_input (.raw s) = s) ∧
    (∀ x : TranscriptInput,
      _normalize_transcript_input (.raw (_normalize_transcript_input x)) =
        _normalize_transcript_input x) :=
  ⟨fun _ => rfl, fun _ => rfl⟩

/-- C2: for every ordered sequence of turn records, the normalizer emits
one line per turn whose trimmed text is non-empty (speaker trimmed,
defaulted to "Speaker" when empty or absent), preserves input order,
drops exactly the turns whose trimmed text is empty, joins with newline
and strips the final block: it equals the spec-side
filter-then-map formulation. -/
theorem normalize_turns_order_and_drop (ts : List Turn) :
    _normalize_transcript_input (.turns ts) =
      trimWs (List.intercalate "\n".data
        ((ts.filter specTurnKeep).map specTurnLine)) := by
  show trimWs (List.intercalate "\n".data (ts.filterMap turnLine)) = _
  rw [filterMap_eq_map_filter_of turnLine specTurnKeep specTurnLine
        turnLine_eq_spec ts]

/-- C7: when the backend credential is absent from the environment
(`None`) or empty (falsy), `generate_action_items` raises the
configuration error; the result does not depend on the backend response,
so no request is made. -/
theorem generate_missing_api_key (resp : PyStr) (t : TranscriptInput)
    (ps : List PyStr) (N : Int) :
    generate_action_items none resp t ps N =
        Except.error ServiceError.missingApiKey ∧
    generate_action_items (some []) resp t ps N =
        Except.error ServiceError.missingApiKey :=
  ⟨rfl, rfl⟩

/-- C3: for every transcript input that normalizes to the empty string,
`generate_action_items` (with a configured credential) raises the
empty-transcript error; the result does not depend on the backend
response, so no request is made. -/
theorem generate_empty_transcript (k resp : PyStr) (t : TranscriptInput)
    (ps : List PyStr) (N : Int) (hk : k ≠ [])
    (ht : _normalize_transcript_input t = []) :
    generate_action_items (some k) resp t ps N =
      Except.error ServiceError.emptyTranscript := by
  simp [generate_action_items, hk, ht]

theorem generate_empty_transcript_witness :
    ("k".data : PyStr) ≠ [] ∧
    _normalize_transcript_input
      (.turns [⟨some "Mark".data, some "   ".data⟩]) = [] ∧
    generate_action_items (some "k".data) "\x7b\"items\": []\x7d".data
      (.turns [⟨some "Mark".data, some "   ".data⟩]) [] 5 =
      Except.error ServiceError.emptyTranscript :=
  ⟨by decide, by decide,
   generate_empty_transcript _ _ _ _ _ (by decide) (by decide)⟩

/-- C10: a non-empty transcript string consisting only of whitespace
bypasses trimming (the raw-string variant is returned unchanged), passes
the emptiness check, and the engine proceeds to the backend call and its
response handling, with the whitespace text embedded in the user prompt;
the empty-transcript error is not raised. -/
theorem generate_whitespace_transcript (k ws resp : PyStr)
    (ps : List PyStr) (N : Int) (hk : k ≠ []) (hne : ws ≠ [])
    (hws : ∀ c ∈ ws, isWs c = true) :
    _normalize_transcript_input (.raw ws) = ws ∧
    generate_action_items (some k) resp (.raw ws) ps N =
      processResponse resp N ∧
    ∃ pre suf, user_prompt ps N (_normalize_transcript_input (.raw ws)) =
      pre ++ ws ++ suf := by
  refine ⟨rfl, ?_, ?_⟩
  · simp [generate_action_items, hk, _normalize_transcript_input, hne]
  · refine ⟨"Participants:\n".data ++ _format_participants ps ++
      "\n\n".data ++ "Max items: ".data ++ (toString N).data ++
      "\n\n".data ++ "Transcript:\n".data, "\n".data, ?_⟩
    simp [user_prompt, _normalize_transcript_input, List.append_assoc]

theorem generate_whitespace_transcript_witness :
    (("k".data : PyStr) ≠ [] ∧ ([' '] : PyStr) ≠ [] ∧
      (∀ c ∈ ([' '] : PyStr), isWs c = true)) ∧
    (_normalize_transcript_input (.raw [' ']) = [' '] ∧
     generate_action_items (some "k".data) "x".data (.raw [' ']) [] 3 =
       processResponse "x".data 3 ∧
     ∃ pre suf, user_prompt [] 3 (_normalize_transcript_input (.raw [' '])) =
       pre ++ [' '] ++ suf) :=
  ⟨⟨by decide, by decide, by decide⟩,
   generate_whitespace_transcript "k".data [' '] "x".data [] 3
     (by decide) (by decide) (by decide)⟩

/-- C4: on every response text on which strict JSON parsing fails (after
fence stripping), `_parse_json_output` performs exactly one recovery
pass: it takes the substring from the first opening brace to the last
closing brace (inclusive) and parses it, returning that parse on
success; otherwise — including when no such brace pair exists — it
raises the invalid-JSON error. -/
theorem parse_json_output_recovery (s : PyStr)
    (h : jsonLoads (stripFence s) = none) :
    _parse_json_output s =
      (match braceSub (stripFence s) with
       | some sub =>
         (match jsonLoads sub with
          | some v => Except.ok v
          | none => Except.error ServiceError.invalidJson)
       | none => Except.error ServiceError.invalidJson) := by
  simp only [_parse_json_output, h]

theorem parse_json_output_recovery_witness :
    jsonLoads (stripFence "no json here".data) = none ∧
    _parse_json_output "no json here".data =
      Except.error ServiceError.invalidJson := by
  refine ⟨rfl, ?_⟩
  rw [parse_json_output_recovery "no json here".data rfl]
  exact rfl

/-- C5: every JSON payload wrapped in a code fence — with or without the
`json` language tag — parses through `_parse_json_output` to exactly the
same structured value as the unwrapped payload: the fence markers and
the language tag are removed before parsing. -/
theorem parse_json_output_fenced (P : PyStr) (v : Json)
    (h : jsonLoads P = some v) :
    _parse_json_output ("```json\n".data ++ P ++ "\n```".data) =
        Except.ok v ∧
    _parse_json_output ("```\n".data ++ P ++ "\n```".data) = Except.ok v ∧
    _parse_json_output P = Except.ok v := by
  refine ⟨?_, ?_, ?_⟩
  · simp only [_parse_json_output]
    rw [jsonLoads_fenced_json P, h]
  · simp only [_parse_json_output]
    rw [jsonLoads_fenced_plain P, h]
  · have hsf : stripFence P = P := by
      unfold stripFence
      rw [startsWith_ticks_false_of_jsonLoads P v h]
      simp
    simp only [_parse_json_output]
    rw [hsf, h]

theorem parse_json_output_fenced_witness :
    jsonLoads "\x7b\"items\": [1]\x7d".data =
      some (Json.jobj [("items".data, Json.jarr [Json.jnum ['1']])]) ∧
    _parse_json_output
        ("```json\n".data ++ "\x7b\"items\": [1]\x7d".data ++ "\n```".data) =
      Except.ok (Json.jobj [("items".data, Json.jarr [Json.jnum ['1']])]) :=
  ⟨rfl,
   (parse_json_output_fenced "\x7b\"items\": [1]\x7d".data
     (Json.jobj [("items".data, Json.jarr [Json.jnum ['1']])]) rfl).1⟩

/-- C1: for every positive `max_items` and every backend response whose
parsed payload yields a list of items, the returned sequence has length
at most `max_items`; when the parsed list is longer, the result is
exactly its first `max_items` elements in their returned order (a take,
no re-sorting), and otherwise the list is returned as is. -/
theorem generate_caps_at_max_items (k resp : PyStr) (t : TranscriptInput)
    (ps : List PyStr) (N : Int) (fields : List (PyStr × Json))
    (xs : List Json) (hk : k ≠ []) (hN : 0 < N)
    (ht : _normalize_transcript_input t ≠ [])
    (hresp : trimWs resp ≠ [])
    (hparse : _parse_json_output (trimWs resp) = Except.ok (Json.jobj fields))
    (hitems : jget fields "items".data = some (Json.jarr xs)) :
    ∃ r, generate_action_items (some k) resp t ps N = Except.ok r ∧
      r.length ≤ N.toNat ∧
      (N < (xs.length : Int) → r = xs.take N.toNat) ∧
      ((xs.length : Int) ≤ N → r = xs) := by
  have hgen : generate_action_items (some k) resp t ps N =
      Except.ok (if (xs.length : Int) > N then pyTake xs N else xs) := by
    simp only [generate_action_items, processResponse, hk, ht, hresp,
      hparse, hitems]
    rfl
  have hptake : pyTake xs N = xs.take N.toNat := by
    unfold pyTake
    rw [if_pos hN.le]
  refine ⟨_, hgen, ?_, ?_, ?_⟩
  · by_cases hlen : (xs.length : Int) > N
    · rw [if_pos hlen, hptake]
      simp [List.length_take]
    · rw [if_neg hlen]
      push_neg at hlen
      omega
  · intro hlt
    rw [if_pos hlt, hptake]
  · intro hle
    rw [if_neg (by omega)]

theorem generate_caps_at_max_items_witness :
    (("k".data : PyStr) ≠ [] ∧ (0 : Int) < 2 ∧
     _normalize_transcript_input (.raw "hi".data) ≠ [] ∧
     trimWs "\x7b\"items\": [1, 2, 3]\x7d".data ≠ [] ∧
     _parse_json_output (trimWs "\x7b\"items\": [1, 2, 3]\x7d".data) =
       Except.ok (Json.jobj [("items".data,
         Json.jarr [Json.jnum ['1'], Json.jnum ['2'], Json.jnum ['3']])]) ∧
     jget [("items".data,
         Json.jarr [Json.jnum ['1'], Json.jnum ['2'], Json.jnum ['3']])]
       "items".data =
       some (Json.jarr [Json.jnum ['1'], Json.jnum ['2'], Json.jnum ['3']])) ∧
    (∃ r, generate_action_items (some "k".data)
        "\x7b\"items\": [1, 2, 3]\x7d".data (.raw "hi".data) [] 2 =
        Except.ok r ∧ r.length ≤ (2 : Int).toNat ∧
      ((2 : Int) < (([Json.jnum ['1'], Json.jnum ['2'],
          Json.jnum ['3']].length : Int)) →
        r = [Json.jnum ['1'], Json.jnum ['2'], Json.jnum ['3']].take
          (2 : Int).toNat) ∧
      ((([Json.jnum ['1'], Json.jnum ['2'],
          Json.jnum ['3']].length : Int)) ≤ 2 →
        r = [Json.jnum ['1'], Json.jnum ['2'], Json.jnum ['3']])) :=
  ⟨⟨by decide, by decide, by decide, by decide, rfl, rfl⟩,
   generate_caps_at_max_items "k".data "\x7b\"items\": [1, 2, 3]\x7d".data
     (.raw "hi".data) [] 2
     [("items".data,
       Json.jarr [Json.jnum ['1'], Json.jnum ['2'], Json.jnum ['3']])]
     [Json.jnum ['1'], Json.jnum ['2'], Json.jnum ['3']]
     (by decide) (by decide) (by decide) (by decide) rfl rfl⟩

/-- C6: when the parsed payload has an `items` field that is present but
is not a list, `generate_action_items` raises the items-shape error and
returns no partial result. -/
theorem generate_items_not_list_error (k resp : PyStr)
    (t : TranscriptInput) (ps : List PyStr) (N : Int)
    (fields : List (PyStr × Json)) (j : Json) (hk : k ≠ [])
    (ht : _normalize_transcript_input t ≠ [])
    (hresp : trimWs resp ≠ [])
    (hparse : _parse_json_output (trimWs resp) = Except.ok (Json.jobj fields))
    (hitems : jget fields "items".data = some j)
    (hnl : ∀ ys, j ≠ Json.jarr ys) :
    generate_action_items (some k) resp t ps N =
      Except.error ServiceError.noItemsList := by
  simp only [generate_action_items, processResponse, hk, ht, hresp,
    hparse, hitems]
  cases j with
  | jnull => rfl
  | jbool b => rfl
  | jnum lit => rfl
  | jstr s => rfl
  | jarr ys => exact absurd rfl (hnl ys)
  | jobj fs => rfl

theorem generate_items_not_list_error_witness :
    (("k".data : PyStr) ≠ [] ∧
     _normalize_transcript_input (.raw "hi".data) ≠ [] ∧
     trimWs "\x7b\"items\": 3\x7d".data ≠ [] ∧
     _parse_json_output (trimWs "\x7b\"items\": 3\x7d".data) =
       Except.ok (Json.jobj [("items".data, Json.jnum ['3'])]) ∧
     jget [("items".data, Json.jnum ['3'])] "items".data =
       some (Json.jnum ['3']) ∧
     (∀ ys, Json.jnum ['3'] ≠ Json.jarr ys)) ∧
    generate_action_items (some "k".data) "\x7b\"items\": 3\x7d".data
      (.raw "hi".data) [] 5 = Except.error ServiceError.noItemsList :=
  ⟨⟨by decide, by decide, by decide, rfl, rfl,
    fun ys h => Json.noConfusion h⟩,
   generate_items_not_list_error "k".data "\x7b\"items\": 3\x7d".data
     (.raw "hi".data) [] 5 [("items".data, Json.jnum ['3'])]
     (Json.jnum ['3']) (by decide) (by decide) (by decide) rfl rfl
     (fun ys h => Json.noConfusion h)⟩

/-- C9: when the parsed payload is an object with no `items` field at
all, `generate_action_items` returns the empty sequence and raises no
error: the missing field defaults to an empty list. -/
theorem generate_missing_items_defaults_empty (k resp : PyStr)
    (t : TranscriptInput) (ps : List PyStr) (N : Int)
    (fields : List (PyStr × Json)) (hk : k ≠ [])
    (ht : _normalize_transcript_input t ≠ [])
    (hresp : trimWs resp ≠ [])
    (hparse : _parse_json_output (trimWs resp) = Except.ok (Json.jobj fields))
    (hitems : jget fields "items".data = none) :
    generate_action_items (some k) resp t ps N = Except.ok [] := by
  simp only [generate_action_items, processResponse, hk, ht, hresp,
    hparse, hitems]
  have hpt : ∀ M : Int, pyTake [] M = [] := by
    intro M
    unfold pyTake
    split <;> simp
  split <;> simp_all [hpt]

theorem generate_missing_items_defaults_empty_witness :
    (("k".data : PyStr) ≠ [] ∧
     _normalize_transcript_input (.raw "hi".data) ≠ [] ∧
     trimWs "\x7b\"other\": 1\x7d".data ≠ [] ∧
     _parse_json_output (trimWs "\x7b\"other\": 1\x7d".data) =
       Except.ok (Json.jobj [("other".data, Json.jnum ['1'])]) ∧
     jget [("other".data, Json.jnum ['1'])] "items".data = none) ∧
    generate_action_items (some "k".data) "\x7b\"other\": 1\x7d".data
      (.raw "hi".data) [] 5 = Except.ok [] :=
  ⟨⟨by decide, by decide, by decide, rfl, rfl⟩,
   generate_missing_items_defaults_empty "k".data "\x7b\"other\": 1\x7d".data
     (.raw "hi".data) [] 5 [("other".data, Json.jnum ['1'])]
     (by decide) (by decide) (by decide) rfl rfl⟩
